import Mathlib

/-
Verification of the spectroscopy posterior model from
`docs/source/docs_image_production.py`.

The core of the repository is the class `SpectroPosterior`, holding an
observation set (`x`, `y`, `sigma`) and two fixed peak centers
(`c1 = 422`, `c2 = 428`), with methods:
  - `forward_model(x, theta)`: two Lorentzian peaks plus a linear background,
  - `likelihood(theta)`: Gaussian log-likelihood up to an additive constant,
  - `prior(theta)`: flat prior returning 0,
  - `__call__(theta) = likelihood(theta) + prior(theta)`.

We embed the numerics over `ℝ` (the source works with Python/numpy floats; the
claims are about the real-number formulas those floats approximate).  Absent
data (`y = None`, `sigma = None`) is modelled with `Option`: `likelihood`
returns `none` when either is absent, modelling the runtime failure that
arithmetic on `None` raises in the source.  A second model of the same
source function, `forward_modelE`, additionally tracks the IEEE non-finite
values (inf/nan) produced by division by zero, which the plain `ℝ` model
(where `a / 0 = 0` by convention) cannot express; it is used for the
degenerate-range and missing-data claims.
-/

noncomputable section

/-- The parameter vector `theta`: ordered 6-tuple
`(A1, w1, A2, w2, b0, b1)` — amplitude and width of peak 1, amplitude and
width of peak 2, background values at the two ends of the x-range.
Unpacked in the source by `A1, w1, A2, w2, b0, b1 = theta`. -/
structure Theta where
  A1 : ℝ
  w1 : ℝ
  A2 : ℝ
  w2 : ℝ
  b0 : ℝ
  b1 : ℝ

/-- Python's builtin `max(x)` over a sequence: the maximum of a nonempty
list.  On the empty list the source raises `ValueError`; we return the junk
value `0` there (all claims assume `x` nonempty). -/
def listMax : List ℝ → ℝ
  | [] => 0
  | a :: t => t.foldl max a

/-- Python's builtin `min(x)` over a sequence, as for `listMax`. -/
def listMin : List ℝ → ℝ
  | [] => 0
  | a :: t => t.foldl min a

/-- The `SpectroPosterior` object: the observation set `(x, y, sigma)` and the
two fixed peak centers.  `y` and `sigma` are `Option`s because the source
constructs the object with `None` for both in the synthetic-data phase. -/
structure SpectroPosterior where
  x : List ℝ
  y : Option (List ℝ)
  sigma : Option (List ℝ)
  c1 : ℝ
  c2 : ℝ

/-- `SpectroPosterior.__init__`: stores the data and fixes the central
wavelengths of the two lines to the known constants 422 and 428. -/
def SpectroPosterior.init (wavelength : List ℝ) (intensity : Option (List ℝ))
    (errors : Option (List ℝ)) : SpectroPosterior :=
  ⟨wavelength, intensity, errors, 422, 428⟩

/-- One Lorentzian peak term `(A / (pi*w)) / (1 + ((xi - c)/w)**2)`, the
expression assigned to `peak_1` and `peak_2` in `forward_model`. -/
def peak (A w c xi : ℝ) : ℝ :=
  (A / (Real.pi * w)) / (1 + ((xi - c) / w) ^ 2)

/-- `SpectroPosterior.forward_model(x, theta)`: elementwise over `x`,
the sum of the two peak terms and the linear background
`d*x + (b0 - d*min(x))` with slope `d = (b1-b0)/(max(x) - min(x))`. -/
def SpectroPosterior.forward_model (P : SpectroPosterior) (x : List ℝ)
    (θ : Theta) : List ℝ :=
  let d : ℝ := (θ.b1 - θ.b0) / (listMax x - listMin x)
  x.map (fun xi =>
    peak θ.A1 θ.w1 P.c1 xi + peak θ.A2 θ.w2 P.c2 xi
      + (d * xi + (θ.b0 - d * listMin x)))

/-- `SpectroPosterior.prior(theta)`: returns `0.` for any input. -/
def SpectroPosterior.prior (_ : SpectroPosterior) (_ : Theta) : ℝ := 0

/-- `SpectroPosterior.likelihood(theta)`:
`-0.5*sum(((self.y - self.forward_model(self.x, theta)) / self.sigma)**2)`.
When `y` or `sigma` is absent (`None`) the source raises a `TypeError` on the
elementwise arithmetic; this failure is modelled by `none`. -/
def SpectroPosterior.likelihood (P : SpectroPosterior) (θ : Theta) :
    Option ℝ :=
  match P.y, P.sigma with
  | some y, some sigma =>
      some (-0.5 * (List.zipWith (fun ri si => (ri / si) ^ 2)
        (List.zipWith (fun yi fi => yi - fi) y (P.forward_model P.x θ))
        sigma).sum)
  | _, _ => none

/-- `SpectroPosterior.__call__(theta)`:
`self.likelihood(theta) + self.prior(theta)`.  A failure of `likelihood`
propagates. -/
def SpectroPosterior.call (P : SpectroPosterior) (θ : Theta) : Option ℝ :=
  match P.likelihood θ with
  | some L => some (L + P.prior θ)
  | none => none

/-- An IEEE-style value: `some a` is the finite real `a`; `none` stands for
any non-finite float (`inf`, `-inf` or `nan`). -/
def NumR : Type := Option ℝ

/-- A finite value. -/
def NumR.fin (a : ℝ) : NumR := some a

/-- Addition: any operation on a non-finite operand in `forward_model`'s
dataflow yields a non-finite result, so `none` propagates. -/
def NumR.add : NumR → NumR → NumR
  | some a, some b => some (a + b)
  | _, _ => none

/-- Subtraction, with `none` propagation. -/
def NumR.sub : NumR → NumR → NumR
  | some a, some b => some (a - b)
  | _, _ => none

/-- Multiplication, with `none` propagation. -/
def NumR.mul : NumR → NumR → NumR
  | some a, some b => some (a * b)
  | _, _ => none

/-- Division: dividing a finite value by zero yields `inf`/`nan` (non-finite);
otherwise exact real division. -/
def NumR.div : NumR → NumR → NumR
  | some a, some b => if b = 0 then none else some (a / b)
  | _, _ => none

/-- Natural power, with `none` propagation. -/
def NumR.pow : NumR → ℕ → NumR
  | some a, n => some (a ^ n)
  | none, _ => none

/-- `SpectroPosterior.forward_model` again, now with the IEEE non-finite
behaviour of numpy tracked: the only Python-level exception is `max()`/`min()`
on an empty sequence (`ValueError`); divisions by zero do not raise, they
produce non-finite values which then propagate elementwise. -/
def SpectroPosterior.forward_modelE (P : SpectroPosterior) (x : List ℝ)
    (θ : Theta) : Except String (List NumR) :=
  match x with
  | [] => Except.error ("max arg is an empty sequence")
  | _ :: _ =>
    let d : NumR :=
      NumR.div (NumR.fin (θ.b1 - θ.b0)) (NumR.fin (listMax x - listMin x))
    Except.ok (x.map (fun xi =>
      NumR.add (NumR.add
        (NumR.div (NumR.div (NumR.fin θ.A1) (NumR.fin (Real.pi * θ.w1)))
          (NumR.add (NumR.fin 1)
            (NumR.pow (NumR.div (NumR.fin (xi - P.c1)) (NumR.fin θ.w1)) 2)))
        (NumR.div (NumR.div (NumR.fin θ.A2) (NumR.fin (Real.pi * θ.w2)))
          (NumR.add (NumR.fin 1)
            (NumR.pow (NumR.div (NumR.fin (xi - P.c2)) (NumR.fin θ.w2)) 2))))
        (NumR.add (NumR.mul d (NumR.fin xi))
          (NumR.sub (NumR.fin θ.b0) (NumR.mul d (NumR.fin (listMin x)))))))

/-- Replace the `j`-th component (0-based, in the order
`A1, w1, A2, w2, b0, b1`) of `theta` by itself plus `ε`. -/
def Theta.perturb (θ : Theta) (j : ℕ) (ε : ℝ) : Theta :=
  match j with
  | 0 => ⟨θ.A1 + ε, θ.w1, θ.A2, θ.w2, θ.b0, θ.b1⟩
  | 1 => ⟨θ.A1, θ.w1 + ε, θ.A2, θ.w2, θ.b0, θ.b1⟩
  | 2 => ⟨θ.A1, θ.w1, θ.A2 + ε, θ.w2, θ.b0, θ.b1⟩
  | 3 => ⟨θ.A1, θ.w1, θ.A2, θ.w2 + ε, θ.b0, θ.b1⟩
  | 4 => ⟨θ.A1, θ.w1, θ.A2, θ.w2, θ.b0 + ε, θ.b1⟩
  | _ => ⟨θ.A1, θ.w1, θ.A2, θ.w2, θ.b0, θ.b1 + ε⟩

/-- The concrete scenario parameters of the demo:
`theta = (1000, 2, 400, 1.5, 35, 25)`. -/
def thetaA : Theta := ⟨1000, 2, 400, 3 / 2, 35, 25⟩

/-- Concrete wavelength grid used as an evaluation point. -/
def xA : List ℝ := [410, 420, 430, 440]

/-- A posterior object built with data absent, as in the synthetic-data
phase of the demo. -/
def PA : SpectroPosterior := SpectroPosterior.init xA none none

/-- A small parameter vector with zero amplitudes and unit widths
(the model then reduces to the background line). -/
def thetaB : Theta := ⟨0, 1, 0, 1, 0, 0⟩

/-- A small fully-populated posterior object. -/
def PB : SpectroPosterior :=
  SpectroPosterior.init [0, 1] (some [0, 0]) (some [1, 1])

/-- Element access through `map`: the `i`-th model prediction is the model
function applied to the `i`-th abscissa. -/
theorem getD_map_of_lt (f : ℝ → ℝ) (l : List ℝ) (i : ℕ) (h : i < l.length) :
    (l.map f).getD i 0 = f (l.getD i 0) := by
  induction l generalizing i with
  | nil => simp at h
  | cons a t ih =>
    cases i with
    | zero => simp
    | succ j =>
      simp only [List.map_cons, List.getD_cons_succ]
      exact ih j (by simpa using h)

/-- A non-finite right operand makes an addition non-finite. -/
theorem NumR.add_none (a : NumR) : NumR.add a none = none := by
  cases a <;> rfl

/-- A non-finite left operand makes a multiplication non-finite. -/
theorem NumR.mul_none_left (b : NumR) : NumR.mul none b = none := by
  cases b <;> rfl

/-- A non-finite right operand makes a subtraction non-finite. -/
theorem NumR.sub_none (a : NumR) : NumR.sub a none = none := by
  cases a <;> rfl

/-- The elementwise chi-squared list summed equals the indexed sum of the
spec formula, given matching lengths. -/
theorem zip_sq_sum_eq (n : ℕ) (y fm s : List ℝ)
    (hy : y.length = n) (hf : fm.length = n) (hs : s.length = n) :
    (List.zipWith (fun ri si => (ri / si) ^ 2)
      (List.zipWith (fun yi fi => yi - fi) y fm) s).sum
    = ∑ i ∈ Finset.range n, ((y.getD i 0 - fm.getD i 0) / s.getD i 0) ^ 2 := by
  induction n generalizing y fm s with
  | zero =>
    rw [List.length_eq_zero] at hy hf hs
    subst hy; subst hf; subst hs; simp
  | succ m ih =>
    match y, fm, s with
    | y0 :: yt, f0 :: ft, s0 :: st =>
      simp only [List.length_cons, Nat.succ.injEq] at hy hf hs
      rw [Finset.sum_range_succ']
      simp only [List.zipWith_cons_cons, List.sum_cons, List.getD_cons_succ,
        List.getD_cons_zero]
      rw [ih yt ft st hy hf hs]
      ring

/-- Unfolding of `likelihood` on a populated record. -/
theorem likelihood_mk (x ys ss : List ℝ) (a b : ℝ) (θ : Theta) :
    (SpectroPosterior.mk x (some ys) (some ss) a b).likelihood θ
    = some (-0.5 * (List.zipWith (fun ri si => (ri / si) ^ 2)
        (List.zipWith (fun yi fi => yi - fi) ys
          ((SpectroPosterior.mk x (some ys) (some ss) a b).forward_model x θ))
        ss).sum) :=
  rfl

/-- `forward_model` depends on the posterior object only through the two
centers, so the stored data is irrelevant to it. -/
theorem forward_model_mk (x' x : List ℝ) (yy sg : Option (List ℝ))
    (a b : ℝ) (θ : Theta) :
    (SpectroPosterior.mk x yy sg a b).forward_model x' θ
    = x'.map (fun xi => peak θ.A1 θ.w1 a xi + peak θ.A2 θ.w2 b xi
        + (((θ.b1 - θ.b0) / (listMax x' - listMin x')) * xi
          + (θ.b0 - ((θ.b1 - θ.b0) / (listMax x' - listMin x')) * listMin x'))) :=
  rfl

/-- Dividing residual and error by the same nonzero constant leaves each
chi-squared term, hence the whole list, unchanged. -/
theorem resid_scale_list (k : ℝ) (hk : k ≠ 0) (ys fm ss : List ℝ) :
    List.zipWith (fun ri si => (ri / si) ^ 2)
      (List.zipWith (fun yi fi => yi - fi)
        (List.zipWith (fun yi fi => fi + (yi - fi) / k) ys fm) fm)
      (ss.map (fun si => si / k))
    = List.zipWith (fun ri si => (ri / si) ^ 2)
        (List.zipWith (fun yi fi => yi - fi) ys fm) ss := by
  induction ys generalizing fm ss with
  | nil => simp
  | cons y0 yt ih =>
    cases fm with
    | nil => simp
    | cons f0 ft =>
      cases ss with
      | nil => simp
      | cons s0 st =>
        simp only [List.zipWith_cons_cons, List.map_cons]
        rw [ih ft st]
        congr 1
        have h1 : f0 + (y0 - f0) / k - f0 = (y0 - f0) / k := by ring
        rw [h1, div_div_div_cancel_right₀ hk]

/-- Scaling the denominator by `k` divides the squared term by `k ^ 2`
(an identity of real division, valid also at zero denominators). -/
theorem div_scale_sq (k r s : ℝ) :
    (r / (k * s)) ^ 2 = (r / s) ^ 2 / k ^ 2 := by
  rw [div_pow, div_pow, mul_pow, div_div, mul_comm (k ^ 2) (s ^ 2)]

/-- Scaling all errors by `k` divides the chi-squared sum by `k ^ 2`. -/
theorem chi2_sigma_scale (k : ℝ) (hk : k ≠ 0) (ys fm ss : List ℝ) :
    (List.zipWith (fun ri si => (ri / si) ^ 2)
      (List.zipWith (fun yi fi => yi - fi) ys fm)
      (ss.map (fun si => k * si))).sum
    = (List.zipWith (fun ri si => (ri / si) ^ 2)
        (List.zipWith (fun yi fi => yi - fi) ys fm) ss).sum / k ^ 2 := by
  induction ys generalizing fm ss with
  | nil => simp
  | cons y0 yt ih =>
    cases fm with
    | nil => simp
    | cons f0 ft =>
      cases ss with
      | nil => simp
      | cons s0 st =>
        simp only [List.zipWith_cons_cons, List.map_cons, List.sum_cons]
        rw [ih ft st, div_scale_sq k, add_div]

/-- Unfolding of `likelihood` on an `init`-built object; the internal
forward-model call coincides with the one of the data-free object since both
fix the same centers. -/
theorem likelihood_init (x ys ss : List ℝ) (θ : Theta) :
    (SpectroPosterior.init x (some ys) (some ss)).likelihood θ
    = some (-0.5 * (List.zipWith (fun ri si => (ri / si) ^ 2)
        (List.zipWith (fun yi fi => yi - fi) ys
          ((SpectroPosterior.init x none none).forward_model x θ)) ss).sum) :=
  rfl

/-- Zero residuals give a zero chi-squared sum. -/
theorem chi2_self_zero (l s : List ℝ) :
    (List.zipWith (fun ri si => (ri / si) ^ 2)
      (List.zipWith (fun yi fi => yi - fi) l l) s).sum = 0 := by
  induction l generalizing s with
  | nil => simp
  | cons a t ih =>
    cases s with
    | nil => simp
    | cons s0 st =>
      simp only [List.zipWith_cons_cons, List.sum_cons]
      rw [ih st]
      norm_num

/-- A sum of squared ratios is nonnegative. -/
theorem sq_div_sum_nonneg (l s : List ℝ) :
    0 ≤ (List.zipWith (fun ri si => (ri / si) ^ 2) l s).sum := by
  induction l generalizing s with
  | nil => simp
  | cons a t ih =>
    cases s with
    | nil => simp
    | cons s0 st =>
      simp only [List.zipWith_cons_cons, List.sum_cons]
      exact add_nonneg (sq_nonneg _) (ih st)

/-- Concrete evaluation: on the background-only parameters `thetaB` the
small posterior `PB` has zero residuals, so its log-likelihood is `0`. -/
theorem PB_likelihood_eval : PB.likelihood thetaB = some 0 := by
  simp [PB, thetaB, SpectroPosterior.likelihood, SpectroPosterior.forward_model,
    SpectroPosterior.init, peak, listMax, listMin]

/-- Claim C1: for parameters with nonzero widths and a nonempty `x` with
`min(x) < max(x)`, `forward_model(x, theta)` has the same length as `x` and
its `i`-th element is the sum of the two Lorentzian peaks at `x[i]` (with the
centers fixed at construction) and the linear background
`d*x[i] + (b0 - d*min(x))` with `d = (b1-b0)/(max(x)-min(x))`. -/
theorem claim_C1 (x : List ℝ) (θ : Theta) (P : SpectroPosterior)
    (hne : x ≠ []) (hw1 : θ.w1 ≠ 0) (hw2 : θ.w2 ≠ 0)
    (hmm : listMin x < listMax x) :
    (P.forward_model x θ).length = x.length ∧
    ∀ i, i < x.length →
      (P.forward_model x θ).getD i 0 =
        (θ.A1 / (Real.pi * θ.w1)) / (1 + ((x.getD i 0 - P.c1) / θ.w1) ^ 2)
        + (θ.A2 / (Real.pi * θ.w2)) / (1 + ((x.getD i 0 - P.c2) / θ.w2) ^ 2)
        + ((θ.b1 - θ.b0) / (listMax x - listMin x)) * x.getD i 0
        + (θ.b0 - ((θ.b1 - θ.b0) / (listMax x - listMin x)) * listMin x) := by
  constructor
  · simp [SpectroPosterior.forward_model]
  · intro i hi
    rw [SpectroPosterior.forward_model]
    rw [getD_map_of_lt _ _ _ hi]
    rw [peak, peak]
    ring

/-- Witness for C1 at the demo scenario inputs. -/
theorem claim_C1_witness :
    (xA ≠ []) ∧ (thetaA.w1 ≠ 0) ∧ (thetaA.w2 ≠ 0) ∧
    (listMin xA < listMax xA) ∧
    (PA.forward_model xA thetaA).length = xA.length := by
  have h1 : xA ≠ [] := by simp [xA]
  have h2 : thetaA.w1 ≠ 0 := by norm_num [thetaA]
  have h3 : thetaA.w2 ≠ 0 := by norm_num [thetaA]
  have h4 : listMin xA < listMax xA := by
    norm_num [listMin, listMax, xA, min_def, max_def]
  exact ⟨h1, h2, h3, h4, (claim_C1 xA thetaA PA h1 h2 h3 h4).1⟩

/-- Claim C2: with data `y` and errors `sigma` present and of the same
length as `x`, `likelihood(theta)` equals
`-0.5 * Σ_i ((y[i] - forward_model(x, theta)[i]) / sigma[i])^2`. -/
theorem claim_C2 (P : SpectroPosterior) (θ : Theta) (ys ss : List ℝ)
    (hy : P.y = some ys) (hs : P.sigma = some ss)
    (hly : ys.length = P.x.length) (hls : ss.length = P.x.length)
    (hw1 : θ.w1 ≠ 0) (hw2 : θ.w2 ≠ 0) (hmm : listMin P.x < listMax P.x) :
    P.likelihood θ =
      some (-0.5 * ∑ i ∈ Finset.range P.x.length,
        ((ys.getD i 0 - (P.forward_model P.x θ).getD i 0) / ss.getD i 0) ^ 2) := by
  rw [SpectroPosterior.likelihood]
  rw [hy, hs]
  dsimp only
  rw [zip_sq_sum_eq P.x.length ys (P.forward_model P.x θ) ss hly
    (by simp [SpectroPosterior.forward_model]) hls]

/-- Witness for C2 on the small posterior `PB`. -/
theorem claim_C2_witness :
    (PB.y = some [0, 0]) ∧ (PB.sigma = some [1, 1]) ∧
    (([0, 0] : List ℝ).length = PB.x.length) ∧
    (([1, 1] : List ℝ).length = PB.x.length) ∧
    (thetaB.w1 ≠ 0) ∧ (thetaB.w2 ≠ 0) ∧ (listMin PB.x < listMax PB.x) ∧
    PB.likelihood thetaB =
      some (-0.5 * ∑ i ∈ Finset.range PB.x.length,
        ((([0, 0] : List ℝ).getD i 0
          - (PB.forward_model PB.x thetaB).getD i 0)
          / ([1, 1] : List ℝ).getD i 0) ^ 2) := by
  have h1 : PB.y = some [0, 0] := rfl
  have h2 : PB.sigma = some [1, 1] := rfl
  have h3 : ([0, 0] : List ℝ).length = PB.x.length := rfl
  have h4 : ([1, 1] : List ℝ).length = PB.x.length := rfl
  have h5 : thetaB.w1 ≠ 0 := by norm_num [thetaB]
  have h6 : thetaB.w2 ≠ 0 := by norm_num [thetaB]
  have h7 : listMin PB.x < listMax PB.x := by
    norm_num [listMin, listMax, PB, SpectroPosterior.init, min_def, max_def]
  exact ⟨h1, h2, h3, h4, h5, h6, h7,
    claim_C2 PB thetaB [0, 0] [1, 1] h1 h2 h3 h4 h5 h6 h7⟩

/-- Claim C3: the call operator returns exactly
`likelihood(theta) + prior(theta)` (whenever `likelihood` produces a
value). -/
theorem claim_C3 (P : SpectroPosterior) (θ : Theta) (L : ℝ)
    (h : P.likelihood θ = some L) : P.call θ = some (L + P.prior θ) := by
  rw [SpectroPosterior.call, h]

/-- Witness for C3 on the small posterior `PB`. -/
theorem claim_C3_witness :
    (PB.likelihood thetaB = some 0) ∧
    PB.call thetaB = some (0 + PB.prior thetaB) :=
  ⟨PB_likelihood_eval, claim_C3 PB thetaB 0 PB_likelihood_eval⟩

/-- Counterexample to claim C4 as stated: at `x = [5, 5]` (so
`min(x) = max(x)`) and a benign parameter vector, `forward_model` does not
raise any error — it returns normally, a list both of whose entries are the
non-finite marker (the background slope divides by zero and the resulting
`inf`/`nan` propagates). -/
theorem claim_C4_counterexample :
    (SpectroPosterior.init [5, 5] none none).forward_modelE [5, 5]
      ⟨1, 1, 1, 1, 0, 0⟩ = Except.ok [none, none] := by
  norm_num [SpectroPosterior.forward_modelE, SpectroPosterior.init,
    NumR.fin, NumR.div, NumR.add, NumR.mul, NumR.sub, NumR.pow,
    listMax, listMin, Real.pi_ne_zero]

/-- Claim C4 (amended): for every nonempty `x` with `min(x) == max(x)`,
`forward_model` does not raise; it silently returns a sequence of the same
length as `x` every element of which is non-finite (`NaN`/`Inf`) — the
division by zero in the background slope poisons every output element, so the
non-finite values themselves are the only failure marker. -/
theorem claim_C4 (x : List ℝ) (θ : Theta) (P : SpectroPosterior)
    (hne : x ≠ []) (hdeg : listMin x = listMax x) :
    ∃ l, P.forward_modelE x θ = Except.ok l ∧ l.length = x.length ∧
      ∀ v ∈ l, v = none := by
  match x, hne with
  | x0 :: xt, _ =>
    refine ⟨_, rfl, by simp, ?_⟩
    intro v hv
    simp only [List.mem_map] at hv
    obtain ⟨xi, _, hxi⟩ := hv
    have hd : NumR.div (NumR.fin (θ.b1 - θ.b0))
        (NumR.fin (listMax (x0 :: xt) - listMin (x0 :: xt))) = none := by
      rw [NumR.fin, NumR.fin, NumR.div]
      rw [if_pos (by rw [← hdeg]; ring)]
    rw [← hxi]
    simp only [hd, NumR.mul_none_left, NumR.sub_none, NumR.add_none]

/-- Witness for the amended C4 at `x = [3, 3]`. -/
theorem claim_C4_witness :
    (([3, 3] : List ℝ) ≠ []) ∧ (listMin [(3 : ℝ), 3] = listMax [(3 : ℝ), 3]) ∧
    ∃ l, (SpectroPosterior.init [3, 3] none none).forward_modelE [3, 3] thetaB
        = Except.ok l ∧ l.length = ([(3 : ℝ), 3]).length ∧
      ∀ v ∈ l, v = none := by
  have h1 : ([3, 3] : List ℝ) ≠ [] := by simp
  have h2 : listMin [(3 : ℝ), 3] = listMax [(3 : ℝ), 3] := by
    norm_num [listMin, listMax]
  exact ⟨h1, h2,
    claim_C4 [3, 3] thetaB (SpectroPosterior.init [3, 3] none none) h1 h2⟩

/-- Claim C5: a posterior constructed with `y` and `sigma` absent fails on
`likelihood` and on the call operator (access failure on the absent data,
modelled by `none`), while `forward_model` alone still succeeds and returns
one prediction per abscissa. -/
theorem claim_C5 (x : List ℝ) (θ : Theta) (hne : x ≠ []) :
    (SpectroPosterior.init x none none).likelihood θ = none ∧
    (SpectroPosterior.init x none none).call θ = none ∧
    ∃ l, (SpectroPosterior.init x none none).forward_modelE x θ
        = Except.ok l ∧ l.length = x.length := by
  refine ⟨rfl, rfl, ?_⟩
  match x, hne with
  | x0 :: xt, _ => exact ⟨_, rfl, by simp⟩

/-- Witness for C5 at `x = [1]`. -/
theorem claim_C5_witness :
    (([1] : List ℝ) ≠ []) ∧
    ((SpectroPosterior.init [1] none none).likelihood thetaB = none ∧
    (SpectroPosterior.init [1] none none).call thetaB = none ∧
    ∃ l, (SpectroPosterior.init [1] none none).forward_modelE [1] thetaB
        = Except.ok l ∧ l.length = ([(1 : ℝ)]).length) := by
  have h1 : ([1] : List ℝ) ≠ [] := by simp
  exact ⟨h1, claim_C5 [1] thetaB h1⟩

/-- Claim C6: for every `k > 0`, dividing the residuals `(y - model)` and the
errors `sigma` simultaneously by `k` leaves `likelihood` unchanged, and
replacing `sigma` by `k * sigma` with residuals fixed multiplies the
log-likelihood by `1 / k^2`. -/
theorem claim_C6 (x ys ss : List ℝ) (a b : ℝ) (θ : Theta) (k : ℝ)
    (hk : 0 < k) :
    (SpectroPosterior.mk x
        (some (List.zipWith (fun yi fi => fi + (yi - fi) / k) ys
          ((SpectroPosterior.mk x (some ys) (some ss) a b).forward_model x θ)))
        (some (ss.map (fun si => si / k))) a b).likelihood θ
      = (SpectroPosterior.mk x (some ys) (some ss) a b).likelihood θ
    ∧ (SpectroPosterior.mk x (some ys) (some (ss.map (fun si => k * si)))
        a b).likelihood θ
      = Option.map (fun L => L / k ^ 2)
          ((SpectroPosterior.mk x (some ys) (some ss) a b).likelihood θ) := by
  have hk0 : k ≠ 0 := ne_of_gt hk
  constructor
  · rw [likelihood_mk, likelihood_mk]
    simp only [forward_model_mk]
    rw [resid_scale_list k hk0]
  · rw [likelihood_mk, likelihood_mk, Option.map_some']
    simp only [forward_model_mk]
    rw [chi2_sigma_scale k hk0, mul_div_assoc]

/-- Witness for C6 at `k = 2` on a one-point data set. -/
theorem claim_C6_witness :
    ((0 : ℝ) < 2) ∧
    ((SpectroPosterior.mk [0]
        (some (List.zipWith (fun yi fi => fi + (yi - fi) / 2) [1]
          ((SpectroPosterior.mk [0] (some [1]) (some [2]) 422 428).forward_model
            [0] thetaB)))
        (some (([2] : List ℝ).map (fun si => si / 2))) 422 428).likelihood thetaB
      = (SpectroPosterior.mk [0] (some [1]) (some [2]) 422 428).likelihood thetaB
    ∧ (SpectroPosterior.mk [0] (some [1])
        (some (([2] : List ℝ).map (fun si => (2 : ℝ) * si))) 422 428).likelihood
          thetaB
      = Option.map (fun L => L / (2 : ℝ) ^ 2)
          ((SpectroPosterior.mk [0] (some [1]) (some [2]) 422
            428).likelihood thetaB)) :=
  ⟨by norm_num, claim_C6 [0] [1] [2] 422 428 thetaB 2 (by norm_num)⟩

/-- Claim C7: at an abscissa equal to `min(x)` the model value minus the two
peak terms is `b0`, and at an abscissa equal to `max(x)` it is `b1`. -/
theorem claim_C7 (x : List ℝ) (θ : Theta) (P : SpectroPosterior) (i : ℕ)
    (hw1 : θ.w1 ≠ 0) (hw2 : θ.w2 ≠ 0) (hmm : listMin x < listMax x)
    (hi : i < x.length) :
    (x.getD i 0 = listMin x →
      (P.forward_model x θ).getD i 0 - peak θ.A1 θ.w1 P.c1 (listMin x)
        - peak θ.A2 θ.w2 P.c2 (listMin x) = θ.b0)
    ∧ (x.getD i 0 = listMax x →
      (P.forward_model x θ).getD i 0 - peak θ.A1 θ.w1 P.c1 (listMax x)
        - peak θ.A2 θ.w2 P.c2 (listMax x) = θ.b1) := by
  have hne : listMax x - listMin x ≠ 0 := sub_ne_zero.mpr (ne_of_gt hmm)
  constructor
  · intro h
    rw [SpectroPosterior.forward_model, getD_map_of_lt _ _ _ hi, h]
    ring
  · intro h
    rw [SpectroPosterior.forward_model, getD_map_of_lt _ _ _ hi, h]
    field_simp
    ring

/-- Witness for C7: the first point of the demo grid is its minimum, and
there the background evaluates to `b0 = 35`. -/
theorem claim_C7_witness :
    (thetaA.w1 ≠ 0) ∧ (thetaA.w2 ≠ 0) ∧ (listMin xA < listMax xA) ∧
    (0 < xA.length) ∧ (xA.getD 0 0 = listMin xA) ∧
    ((PA.forward_model xA thetaA).getD 0 0
      - peak thetaA.A1 thetaA.w1 PA.c1 (listMin xA)
      - peak thetaA.A2 thetaA.w2 PA.c2 (listMin xA) = thetaA.b0) := by
  have h1 : thetaA.w1 ≠ 0 := by norm_num [thetaA]
  have h2 : thetaA.w2 ≠ 0 := by norm_num [thetaA]
  have h3 : listMin xA < listMax xA := by
    norm_num [listMin, listMax, xA, min_def, max_def]
  have h4 : 0 < xA.length := by simp [xA]
  have h5 : xA.getD 0 0 = listMin xA := by
    norm_num [listMin, xA, min_def]
  exact ⟨h1, h2, h3, h4, h5, (claim_C7 xA thetaA PA 0 h1 h2 h3 h4).1 h5⟩

/-- Claim C8: `prior(theta)` returns `0` for every posterior object and every
parameter vector. -/
theorem claim_C8 (P : SpectroPosterior) (θ : Theta) : P.prior θ = 0 := rfl

/-- Claim C9: with noiseless synthetic data `y = forward_model(x, theta*)`
and a constant positive error `s`, perturbing any single component of
`theta*` never increases the log-likelihood above
`likelihood(theta*) = 0` (so `theta*` is a maximum, in particular a local
one). -/
theorem claim_C9 (x : List ℝ) (θstar : Theta) (s : ℝ) (j : ℕ) (ε : ℝ)
    (hs : 0 < s) (hj : j < 6)
    (hw1 : (θstar.perturb j ε).w1 ≠ 0) (hw2 : (θstar.perturb j ε).w2 ≠ 0) :
    ∃ Lp,
      (SpectroPosterior.init x
        (some ((SpectroPosterior.init x none none).forward_model x θstar))
        (some (x.map (fun _ => s)))).likelihood (θstar.perturb j ε)
        = some Lp ∧
      (SpectroPosterior.init x
        (some ((SpectroPosterior.init x none none).forward_model x θstar))
        (some (x.map (fun _ => s)))).likelihood θstar = some 0 ∧
      Lp ≤ 0 := by
  refine ⟨_, likelihood_init x _ _ _, ?_, ?_⟩
  · rw [likelihood_init, chi2_self_zero]
    norm_num
  · have h := sq_div_sum_nonneg
      (List.zipWith (fun yi fi => yi - fi)
        ((SpectroPosterior.init x none none).forward_model x θstar)
        ((SpectroPosterior.init x none none).forward_model x
          (θstar.perturb j ε)))
      (x.map (fun _ => s))
    linarith [h]

/-- Witness for C9: perturbing the background intercept `b0` of `thetaB` by
`1` on a two-point grid. -/
theorem claim_C9_witness :
    ((0 : ℝ) < 1) ∧ ((4 : ℕ) < 6) ∧ ((thetaB.perturb 4 1).w1 ≠ 0) ∧
    ((thetaB.perturb 4 1).w2 ≠ 0) ∧
    ∃ Lp,
      (SpectroPosterior.init [0, 1]
        (some ((SpectroPosterior.init [0, 1] none none).forward_model [0, 1]
          thetaB))
        (some (([0, 1] : List ℝ).map (fun _ => (1 : ℝ))))).likelihood
          (thetaB.perturb 4 1) = some Lp ∧
      (SpectroPosterior.init [0, 1]
        (some ((SpectroPosterior.init [0, 1] none none).forward_model [0, 1]
          thetaB))
        (some (([0, 1] : List ℝ).map (fun _ => (1 : ℝ))))).likelihood thetaB
        = some 0 ∧
      Lp ≤ 0 := by
  have h1 : (0 : ℝ) < 1 := by norm_num
  have h2 : (4 : ℕ) < 6 := by norm_num
  have h3 : (thetaB.perturb 4 1).w1 ≠ 0 := by norm_num [Theta.perturb, thetaB]
  have h4 : (thetaB.perturb 4 1).w2 ≠ 0 := by norm_num [Theta.perturb, thetaB]
  exact ⟨h1, h2, h3, h4, claim_C9 [0, 1] thetaB 1 4 1 h1 h2 h3 h4⟩

/-- Claim C10: with valid data (positive errors, nondegenerate `x`) the
log-likelihood is `≤ 0`; since the prior is identically zero the call
operator returns the same value, and the likelihood is `0` exactly when the
forward-model prediction matches `y` at every point. -/
theorem claim_C10 (P : SpectroPosterior) (θ : Theta) (ys ss : List ℝ)
    (hy : P.y = some ys) (hsig : P.sigma = some ss)
    (hly : ys.length = P.x.length) (hls : ss.length = P.x.length)
    (hpos : ∀ i, i < P.x.length → 0 < ss.getD i 0)
    (hw1 : θ.w1 ≠ 0) (hw2 : θ.w2 ≠ 0) (hmm : listMin P.x < listMax P.x) :
    ∃ L, P.likelihood θ = some L ∧ P.call θ = some L ∧ L ≤ 0 ∧
      (L = 0 ↔ ∀ i, i < P.x.length →
        ys.getD i 0 = (P.forward_model P.x θ).getD i 0) := by
  have hlen : (P.forward_model P.x θ).length = P.x.length := by
    simp [SpectroPosterior.forward_model]
  have hlik : P.likelihood θ =
      some (-0.5 * ∑ i ∈ Finset.range P.x.length,
        ((ys.getD i 0 - (P.forward_model P.x θ).getD i 0) / ss.getD i 0) ^ 2) := by
    rw [SpectroPosterior.likelihood, hy, hsig]
    dsimp only
    rw [zip_sq_sum_eq P.x.length ys (P.forward_model P.x θ) ss hly hlen hls]
  have hS : 0 ≤ ∑ i ∈ Finset.range P.x.length,
      ((ys.getD i 0 - (P.forward_model P.x θ).getD i 0) / ss.getD i 0) ^ 2 :=
    Finset.sum_nonneg (fun i _ => sq_nonneg _)
  refine ⟨_, hlik, ?_, ?_, ?_⟩
  · rw [SpectroPosterior.call, hlik]
    dsimp only [SpectroPosterior.prior]
    rw [add_zero]
  · linarith [hS]
  · constructor
    · intro h0
      have hSz : ∑ i ∈ Finset.range P.x.length,
          ((ys.getD i 0 - (P.forward_model P.x θ).getD i 0) / ss.getD i 0) ^ 2
          = 0 := by linarith [hS, h0]
      intro i hi
      have hterm := (Finset.sum_eq_zero_iff_of_nonneg
        (fun i _ => sq_nonneg _)).mp hSz i (Finset.mem_range.mpr hi)
      have hdiv : (ys.getD i 0 - (P.forward_model P.x θ).getD i 0)
          / ss.getD i 0 = 0 := sq_eq_zero_iff.mp hterm
      rcases div_eq_zero_iff.mp hdiv with hnum | hden
      · linarith [sub_eq_zero.mp hnum]
      · exact absurd hden (ne_of_gt (hpos i hi))
    · intro hall
      have hSz : ∑ i ∈ Finset.range P.x.length,
          ((ys.getD i 0 - (P.forward_model P.x θ).getD i 0) / ss.getD i 0) ^ 2
          = 0 := by
        apply Finset.sum_eq_zero
        intro i hi
        rw [hall i (Finset.mem_range.mp hi), sub_self, zero_div]
        norm_num
      rw [hSz]
      ring

/-- Witness for C10 on the small posterior `PB`. -/
theorem claim_C10_witness :
    (PB.y = some [0, 0]) ∧ (PB.sigma = some [1, 1]) ∧
    (([0, 0] : List ℝ).length = PB.x.length) ∧
    (([1, 1] : List ℝ).length = PB.x.length) ∧
    (∀ i, i < PB.x.length → 0 < ([1, 1] : List ℝ).getD i 0) ∧
    (thetaB.w1 ≠ 0) ∧ (thetaB.w2 ≠ 0) ∧ (listMin PB.x < listMax PB.x) ∧
    ∃ L, PB.likelihood thetaB = some L ∧ PB.call thetaB = some L ∧ L ≤ 0 ∧
      (L = 0 ↔ ∀ i, i < PB.x.length →
        ([0, 0] : List ℝ).getD i 0
          = (PB.forward_model PB.x thetaB).getD i 0) := by
  have h1 : PB.y = some [0, 0] := rfl
  have h2 : PB.sigma = some [1, 1] := rfl
  have h3 : ([0, 0] : List ℝ).length = PB.x.length := rfl
  have h4 : ([1, 1] : List ℝ).length = PB.x.length := rfl
  have h5 : ∀ i, i < PB.x.length → 0 < ([1, 1] : List ℝ).getD i 0 := by
    intro i hi
    have hi2 : i < 2 := hi
    interval_cases i <;> norm_num
  have h6 : thetaB.w1 ≠ 0 := by norm_num [thetaB]
  have h7 : thetaB.w2 ≠ 0 := by norm_num [thetaB]
  have h8 : listMin PB.x < listMax PB.x := by
    norm_num [listMin, listMax, PB, SpectroPosterior.init, min_def, max_def]
  exact ⟨h1, h2, h3, h4, h5, h6, h7, h8,
    claim_C10 PB thetaB [0, 0] [1, 1] h1 h2 h3 h4 h5 h6 h7 h8⟩

end
